import Mathlib

/-!
Verification development for the host-native OCI image builder
(pkg/oci/builder.go and pkg/oci/go_builder.go).

The Go source is shallowly embedded: pure path manipulation and data
assembly become Lean functions, filesystem state becomes explicit state
passing, and external collaborators (sha256, gzip, JSON encoding, the
registry, the process table) become explicit parameters.
-/

namespace OciBuilder

/-! ## Lexical path model

Go's path/filepath functions used by the builder (Clean, Join, Dir, Rel,
IsAbs) are purely lexical.  A path is modelled as an absolute flag plus
its list of components; components of well-formed paths contain no
separator characters. -/

/-- A lexical file path: absolute flag plus components. -/
structure GoPath where
  abs : Bool
  comps : List String
deriving DecidableEq, Repr

/-- Worker for the component-level model of Go filepath.Clean.  The
accumulator holds the already-cleaned components in reverse order. -/
def cleanAux (abs : Bool) : List String → List String → List String
  | acc, [] => acc.reverse
  | acc, c :: rest =>
    if c = "" ∨ c = "." then cleanAux abs acc rest
    else if c = ".." then
      match acc with
      | [] => if abs then cleanAux abs [] rest else cleanAux abs [".."] rest
      | a :: as =>
        if a = ".." then cleanAux abs (".." :: a :: as) rest
        else cleanAux abs as rest
    else cleanAux abs (c :: acc) rest

/-- Model of Go filepath.Clean. -/
def GoPath.clean (p : GoPath) : GoPath :=
  ⟨p.abs, cleanAux p.abs [] p.comps⟩

/-- Model of Go filepath.Join of a path with a (relative) path: concatenate
the components and Clean, keeping the first operand's absoluteness. -/
def goJoin (a b : GoPath) : GoPath :=
  GoPath.clean ⟨a.abs, a.comps ++ b.comps⟩

/-- Model of Go filepath.Dir: everything before the last component,
Cleaned. -/
def goDir (p : GoPath) : GoPath :=
  ⟨p.abs, cleanAux p.abs [] p.comps.dropLast⟩

/-- Strip the longest common leading run of equal components, returning the
two remainders.  This is the common-prefix scan inside Go filepath.Rel. -/
def stripCommon : List String → List String → List String × List String
  | a :: as, b :: bs => if a = b then stripCommon as bs else (a :: as, b :: bs)
  | as, bs => (as, bs)

/-- Component-level model of Go filepath.Rel.  Returns none exactly when Go
returns an error: mismatched absoluteness, or the first differing base
component is a parent-traversal component.  The empty result list renders
as the path ".". -/
def goRel (base targ : GoPath) : Option (List String) :=
  let b := base.clean
  let t := targ.clean
  if b.abs ≠ t.abs then none
  else
    let rests := stripCommon b.comps t.comps
    if rests.1.head? = some ".." then none
    else some (List.replicate rests.1.length ".." ++ rests.2)

/-! Basic lemmas about the path model. -/

theorem cleanAux_abs_no_parent (cs : List String) :
    ∀ acc : List String, ".." ∉ acc → ".." ∉ cleanAux true acc cs := by
  induction cs with
  | nil =>
    intro acc hacc
    simpa [cleanAux] using hacc
  | cons c rest ih =>
    intro acc hacc
    by_cases h1 : c = "" ∨ c = "."
    · simpa [cleanAux, h1] using ih acc hacc
    · by_cases h2 : c = ".."
      · cases acc with
        | nil => simpa [cleanAux, h1, h2] using ih [] (by simp)
        | cons a as =>
          have ha : a ≠ ".." := fun h => hacc (h ▸ List.mem_cons_self a as)
          have has : ".." ∉ as := fun h => hacc (List.mem_cons_of_mem a h)
          simpa [cleanAux, h1, h2, ha] using ih as has
      · have hc : c ≠ ".." := h2
        have : ".." ∉ c :: acc := by
          intro h
          rcases List.mem_cons.mp h with h | h
          · exact hc h.symm
          · exact hacc h
        simpa [cleanAux, h1, h2] using ih (c :: acc) this

theorem stripCommon_fst_sublist (bs : List String) :
    ∀ as : List String, (stripCommon as bs).1.Sublist as := by
  induction bs with
  | nil =>
    intro as
    cases as <;> simp [stripCommon]
  | cons b brest ih =>
    intro as
    cases as with
    | nil => simp [stripCommon]
    | cons a arest =>
      by_cases h : a = b
      · simpa [stripCommon, h] using (ih arest).cons _
      · simp [stripCommon, h]

/-- For absolute base and target, Go filepath.Rel never errors: a cleaned
absolute path contains no parent-traversal components. -/
theorem goRel_abs_some (base targ : GoPath) (hb : base.abs = true)
    (ht : targ.abs = true) : ∃ r, goRel base targ = some r := by
  have hnb : ".." ∉ (base.clean).comps := by
    simpa [GoPath.clean, hb] using cleanAux_abs_no_parent base.comps [] (by simp)
  have hsub := stripCommon_fst_sublist (targ.clean).comps (base.clean).comps
  have hhead : (stripCommon (base.clean).comps (targ.clean).comps).1.head? ≠ some ".." := by
    intro h
    exact hnb (hsub.mem (List.mem_of_mem_head? h))
  have habs : ¬ ((base.clean).abs ≠ (targ.clean).abs) := by
    simp [GoPath.clean, hb, ht]
  refine ⟨List.replicate (stripCommon (base.clean).comps (targ.clean).comps).1.length ".."
    ++ (stripCommon (base.clean).comps (targ.clean).comps).2, ?_⟩
  simp only [goRel, if_neg habs, if_neg hhead]

/-! ## Symlink validation (builder.go, validatedLinkTarget) -/

/-- Failure modes of the tar assembly walk. -/
inductive LinkErr where
  /-- the error "project may not contain absolute links" -/
  | absoluteLink
  /-- the error "links must stay within project root" -/
  | linkEscapesRoot
  /-- filepath.Rel returned an error, which is propagated verbatim -/
  | relFailed
deriving DecidableEq, Repr

/-- Model of validatedLinkTarget (builder.go).  `tgt` is the raw target of
the symlink at `path` as returned by os.Readlink; on success the raw
target is returned unchanged. -/
def validatedLinkTarget (root path tgt : GoPath) : Except LinkErr GoPath :=
  if tgt.abs then .error .absoluteLink
  else
    let lnkTgt := goJoin (goDir path) tgt
    match goRel root lnkTgt with
    | none => .error .relFailed
    | some relLnkTgt =>
      if relLnkTgt.head? = some ".." then .error .linkEscapesRoot
      else .ok tgt

/-! ## Tar assembly (builder.go newDataTarball / newCertsTarball,
go_builder.go goExeTarball)

Tar headers carry the fields the spec constrains.  FInfo models the parts
of an os.FileInfo (with its unix stat) that tar.FileInfoHeader consumes:
ownership and the header mode bits. -/

/-- builder.go DefaultUid -/
def DefaultUid : Int := 1000

/-- builder.go DefaultGid -/
def DefaultGid : Int := 1000

/-- builder.go defaultIgnored -/
def defaultIgnored : List String := [".git", ".func", ".funcignore", ".gitignore"]

/-- The slice of an os.FileInfo (plus unix stat) that tar.FileInfoHeader
reads: owner uid/gid and the resulting header mode bits. -/
structure FInfo where
  uid : Int
  gid : Int
  mode : Nat
deriving DecidableEq, Repr

/-- Tar entry kinds relevant here. -/
inductive EntryType where
  | file
  | dir
  | symlink
deriving DecidableEq, Repr

/-- A produced tar header: archive path, type, link target (for symlink
entries the raw target string), ownership and mode. -/
structure TarEntry where
  name : String
  typeflag : EntryType
  linkname : Option GoPath
  uid : Int
  gid : Int
  mode : Nat
deriving DecidableEq, Repr

/-- A node of the project tree walked by newDataTarball.  Directory
children are listed in the lexical order filepath.Walk uses. -/
inductive Node where
  | file (name : String) (fi : FInfo)
  | dir (name : String) (fi : FInfo) (children : List Node)
  | symlink (name : String) (fi : FInfo) (tgt : GoPath)

/-- The basename of a node, i.e. info.Name() in the walk callback. -/
def Node.name : Node → String
  | .file n _ => n
  | .dir n _ _ => n
  | .symlink n _ _ => n

/-- The archive-internal path: slashpath.Join of "/func" with the
forward-slash relative path.  The empty component list is the walk's
relative path ".", which joins to "/func" itself. -/
def entryName (relComps : List String) : String :=
  relComps.foldl (fun a c => a ++ "/" ++ c) "/func"

mutual
/-- Model of the filepath.Walk callback body in newDataTarball (builder.go)
for the node whose path relative to the project root is relComps ([] for
the root itself).  Ignored basenames are skipped (SkipDir for a
directory); symlinks are validated first; every emitted header gets the
rewritten archive path and uid/gid forced to the builder defaults. -/
def walkNode (root : GoPath) (relComps : List String) :
    Node → Except LinkErr (List TarEntry)
  | .file n fi =>
    if n ∈ defaultIgnored then .ok []
    else .ok [⟨entryName relComps, .file, none, DefaultUid, DefaultGid, fi.mode⟩]
  | .symlink n fi tgt =>
    if n ∈ defaultIgnored then .ok []
    else
      match validatedLinkTarget root ⟨root.abs, root.comps ++ relComps⟩ tgt with
      | .error e => .error e
      | .ok lnk =>
        .ok [⟨entryName relComps, .symlink, some lnk, DefaultUid, DefaultGid, fi.mode⟩]
  | .dir n fi children =>
    if n ∈ defaultIgnored then .ok []
    else
      match walkChildren root relComps children with
      | .error e => .error e
      | .ok rest =>
        .ok (⟨entryName relComps, .dir, none, DefaultUid, DefaultGid, fi.mode⟩ :: rest)

/-- Walk a directory's children in order, each at its own relative path;
the first error aborts the whole walk, as in filepath.Walk. -/
def walkChildren (root : GoPath) (relComps : List String) :
    List Node → Except LinkErr (List TarEntry)
  | [] => .ok []
  | c :: cs =>
    match walkNode root (relComps ++ [c.name]) c with
    | .error e => .error e
    | .ok es =>
      match walkChildren root relComps cs with
      | .error e => .error e
      | .ok rest => .ok (es ++ rest)
end

/-- Model of newDataTarball (builder.go): walk the project tree rooted at
root and emit the tar entries of the source data tarball. -/
def newDataTarball (root : GoPath) (tree : Node) : Except LinkErr (List TarEntry) :=
  walkNode root [] tree

instance {ε α : Type} [DecidableEq ε] [DecidableEq α] : DecidableEq (Except ε α)
  | .ok a, .ok b =>
    if h : a = b then isTrue (by rw [h]) else isFalse (by intro hc; cases hc; exact h rfl)
  | .error a, .error b =>
    if h : a = b then isTrue (by rw [h]) else isFalse (by intro hc; cases hc; exact h rfl)
  | .ok _, .error _ => isFalse (by intro hc; cases hc)
  | .error _, .ok _ => isFalse (by intro hc; cases hc)

/-- The two canonical in-container certificate paths (newCertsTarball). -/
def certPaths : List String :=
  ["/etc/ssl/certs/ca-certificates.crt", "/etc/pki/tls/certs/ca-certificates.crt"]

/-- Model of newCertsTarball (builder.go): one os.Stat of the source CA
bundle, and one tar entry per canonical path, each with uid/gid forced to
the builder defaults. -/
def newCertsTarball (fi : FInfo) : List TarEntry :=
  certPaths.map (fun p => ⟨p, .file, none, DefaultUid, DefaultGid, fi.mode⟩)

/-- Model of goExeTarball (go_builder.go): a single entry at /func/f whose
header comes from tar.FileInfoHeader of the compiled binary's FileInfo.
The permission bits are forced to 0755 preserving the high mode bits
(mode with its low 9 bits cleared, plus 0o755 = 493); the owner uid/gid
of the FileInfo are kept as-is, there is no override here. -/
def goExeTarball (fi : FInfo) : TarEntry :=
  { name := "/func/f"
  , typeflag := .file
  , linkname := none
  , uid := fi.uid
  , gid := fi.gid
  , mode := fi.mode / 512 * 512 + 493 }

mutual
/-- Every entry emitted by the data-tarball walk carries the builder's
default ownership. -/
theorem walkNode_owner (root : GoPath) (relComps : List String) :
    ∀ (n : Node) (es : List TarEntry), walkNode root relComps n = .ok es →
      ∀ e ∈ es, e.uid = DefaultUid ∧ e.gid = DefaultGid
  | .file nm fi, es, h => by
    by_cases hig : nm ∈ defaultIgnored
    · simp only [walkNode, if_pos hig, Except.ok.injEq] at h
      subst h; intro e he; cases he
    · simp only [walkNode, if_neg hig, Except.ok.injEq] at h
      subst h; intro e he
      rcases List.mem_singleton.mp he with rfl
      exact ⟨rfl, rfl⟩
  | .symlink nm fi tgt, es, h => by
    by_cases hig : nm ∈ defaultIgnored
    · simp only [walkNode, if_pos hig, Except.ok.injEq] at h
      subst h; intro e he; cases he
    · simp only [walkNode, if_neg hig] at h
      cases hv : validatedLinkTarget root ⟨root.abs, root.comps ++ relComps⟩ tgt with
      | error e => rw [hv] at h; cases h
      | ok lnk =>
        rw [hv] at h
        simp only [Except.ok.injEq] at h
        subst h; intro e he
        rcases List.mem_singleton.mp he with rfl
        exact ⟨rfl, rfl⟩
  | .dir nm fi children, es, h => by
    by_cases hig : nm ∈ defaultIgnored
    · simp only [walkNode, if_pos hig, Except.ok.injEq] at h
      subst h; intro e he; cases he
    · simp only [walkNode, if_neg hig] at h
      cases hc : walkChildren root relComps children with
      | error e => rw [hc] at h; cases h
      | ok rest =>
        rw [hc] at h
        simp only [Except.ok.injEq] at h
        subst h; intro e he
        rcases List.mem_cons.mp he with rfl | he2
        · exact ⟨rfl, rfl⟩
        · exact walkChildren_owner root relComps children rest hc e he2

/-- As walkNode_owner, for a list of children. -/
theorem walkChildren_owner (root : GoPath) (relComps : List String) :
    ∀ (cs : List Node) (es : List TarEntry), walkChildren root relComps cs = .ok es →
      ∀ e ∈ es, e.uid = DefaultUid ∧ e.gid = DefaultGid
  | [], es, h => by
    simp only [walkChildren, Except.ok.injEq] at h
    subst h; intro e he; cases he
  | c :: cs, es, h => by
    simp only [walkChildren] at h
    cases hn : walkNode root (relComps ++ [c.name]) c with
    | error e => rw [hn] at h; cases h
    | ok es1 =>
      rw [hn] at h
      cases hc : walkChildren root relComps cs with
      | error e => rw [hc] at h; cases h
      | ok rest =>
        rw [hc] at h
        simp only [Except.ok.injEq] at h
        subst h; intro e he
        rcases List.mem_append.mp he with h1 | h2
        · exact walkNode_owner root (relComps ++ [c.name]) c es1 hn e h1
        · exact walkChildren_owner root relComps cs rest hc e h2
end

/-! ## Image assembly (builder.go containerize and helpers)

Blob contents are byte lists; sha256, gzip decompression, JSON encoding
and the remote registry are external collaborators, passed in as explicit
functions. -/

/-- go-containerregistry types.OCILayer -/
def OCILayerMT : String := "application/vnd.oci.image.layer.v1.tar+gzip"

/-- go-containerregistry types.OCIConfigJSON -/
def OCIConfigJSONMT : String := "application/vnd.oci.image.config.v1+json"

/-- go-containerregistry types.OCIManifestSchema1 -/
def OCIManifestMT : String := "application/vnd.oci.image.manifest.v1+json"

/-- go-containerregistry types.OCIImageIndex -/
def OCIImageIndexMT : String := "application/vnd.oci.image.index.v1+json"

/-- v1.Platform -/
structure Platform where
  os : String
  architecture : String
  variant : String
  osVersion : String
deriving DecidableEq, Repr

/-- v1.Descriptor: digest is the sha256 hex. -/
structure Descriptor where
  mediaType : String
  digest : String
  size : Nat
  platform : Option Platform
deriving DecidableEq, Repr

/-- The imageLayer pair of builder.go: the layer's descriptor together
with what the v1.Layer interface yields (DiffID and compressed bytes). -/
structure ImageLayer where
  descriptor : Descriptor
  diffID : String
  compressed : List Nat
deriving DecidableEq, Repr

/-- A timestamp; only its RFC 3339 rendering is observable here. -/
structure GoTime where
  rfc3339 : String
deriving DecidableEq, Repr

/-- v1.History entry. -/
structure HistoryEntry where
  author : String
  created : GoTime
  comment : String
  emptyLayer : Bool
deriving DecidableEq, Repr

/-- v1.RootFS; fsType models the field named "type". -/
structure RootFS where
  fsType : String
  diffIDs : List String
deriving DecidableEq, Repr

/-- v1.Config, the fields the builder touches.  The Go volume and
exposed-port maps are modelled as their key lists. -/
structure V1Config where
  env : List String
  volumes : List String
  exposedPorts : List String
  workingDir : String
  stopSignal : String
  user : String
  cmd : List String
deriving DecidableEq, Repr

/-- v1.ConfigFile, the fields the builder touches. -/
structure ConfigFile where
  created : GoTime
  architecture : String
  osName : String
  osVersion : String
  variant : String
  config : V1Config
  history : List HistoryEntry
  rootFS : RootFS
deriving DecidableEq, Repr

/-- v1.Manifest. -/
structure Manifest where
  schemaVersion : Nat
  mediaType : String
  config : Descriptor
  layers : List Descriptor
deriving DecidableEq, Repr

/-- v1.IndexManifest. -/
structure IndexManifest where
  schemaVersion : Nat
  mediaType : String
  manifests : List Descriptor
deriving DecidableEq, Repr

/-- One layer of the fetched base image, as the registry exposes it:
its declared digest and its compressed bytes. -/
structure RemoteLayer where
  digestHex : String
  compressed : List Nat
deriving DecidableEq, Repr

/-- The parts of the base image's config file that newConfigFile merges. -/
structure BaseConfig where
  env : List String
  user : String
  history : List HistoryEntry
  diffIDs : List String
deriving DecidableEq, Repr

/-- A fetched base image: its manifest's layer descriptors, its layers,
and its config file. -/
structure BaseImage where
  manifestLayers : List Descriptor
  layers : List RemoteLayer
  config : BaseConfig
deriving DecidableEq, Repr

/-- External primitives: content hashing, decompression and JSON
encoding.  sha256 of a byte list yields the hex digest string. -/
structure Ext where
  sha256 : List Nat → String
  gunzip : List Nat → List Nat
  encodeConfig : ConfigFile → List Nat
  encodeManifest : Manifest → List Nat

/-- The buildJob fields the image assembly reads. -/
structure BuildJob where
  start : GoTime
  hash : String
  fnEnvs : List String
  fnVolumePaths : List (Option String)
  baseImageRef : String
  platforms : List Platform

/-- Model of newConfigEnvs (builder.go).  gitDescribe is the outcome of
the subprocess run of the VCS binary with arguments "describe --tags" in
the project root: some raw-output on success, none when it fails — the
failure is recovered, yielding an empty FUNC_VERSION value. -/
def newConfigEnvs (job : BuildJob) (gitDescribe : Option String) : List String :=
  ["FUNC_CREATED=" ++ job.start.rfc3339,
   match gitDescribe with
   | none => "FUNC_VERSION="
   | some out => "FUNC_VERSION=" ++ out.trim]
  ++ job.fnEnvs

/-- Model of newConfigVolumes (builder.go): the declared volume target
paths, skipping nil paths; the Go map of keys is modelled as the list of
its keys. -/
def newConfigVolumes (job : BuildJob) : List String :=
  job.fnVolumePaths.filterMap id

/-- Model of newConfigFile (builder.go): compose the config, populate the
layers' diffIDs in order, then merge the base image's config when one is
present (user override, env / history / diffID prepends). -/
def newConfigFile (job : BuildJob) (p : Platform) (base : Option BaseImage)
    (imageLayers : List ImageLayer) (gitDescribe : Option String) : ConfigFile :=
  let cfg : ConfigFile :=
    { created := job.start
    , architecture := p.architecture
    , osName := p.os
    , osVersion := p.osVersion
    , variant := p.variant
    , config :=
      { env := newConfigEnvs job gitDescribe
      , volumes := newConfigVolumes job
      , exposedPorts := ["8080/tcp"]
      , workingDir := "/func/"
      , stopSignal := "SIGKILL"
      , user := "1000:1000"
      , cmd := [] }
    , history :=
      [{ author := "func", created := job.start
       , comment := "func host builder", emptyLayer := true }]
    , rootFS := { fsType := "layers", diffIDs := imageLayers.map (fun l => l.diffID) } }
  match base with
  | none => cfg
  | some b =>
    { cfg with
      config :=
        { cfg.config with
          user := if b.config.user ≠ "" then b.config.user else cfg.config.user
          env := b.config.env ++ cfg.config.env }
      history := b.config.history ++ cfg.history
      rootFS := { cfg.rootFS with diffIDs := b.config.diffIDs ++ cfg.rootFS.diffIDs } }

/-- Model of writeAsJSONBlob (builder.go): the encoded bytes are streamed
through a sha256 hasher while written, then the temp file is renamed to
blobs/sha256 under its hex digest.  Returns the partially-completed
descriptor and the placed blob (name, content). -/
def writeAsJSONBlob (ext : Ext) (bytes : List Nat) :
    Descriptor × (String × List Nat) :=
  let hex := ext.sha256 bytes
  (⟨"", hex, bytes.length, none⟩, (hex, bytes))

/-- Model of writeConfig (builder.go). -/
def writeConfig (ext : Ext) (cf : ConfigFile) : Descriptor × (String × List Nat) :=
  let r := writeAsJSONBlob ext (ext.encodeConfig cf)
  ({ r.1 with mediaType := OCIConfigJSONMT }, r.2)

/-- Model of writeManifest (builder.go): base manifest layers first when a
base is present, then the built layers' descriptors; the manifest is then
written as a JSON blob and its descriptor gains media type and
platform. -/
def writeManifest (ext : Ext) (p : Platform) (base : Option BaseImage)
    (configDesc : Descriptor) (layers : List ImageLayer) :
    Manifest × Descriptor × (String × List Nat) :=
  let layerDescs :=
    (match base with
     | none => []
     | some b => b.manifestLayers)
    ++ layers.map (fun l => l.descriptor)
  let manifest : Manifest := ⟨2, OCIManifestMT, configDesc, layerDescs⟩
  let r := writeAsJSONBlob ext (ext.encodeManifest manifest)
  (manifest, { r.1 with mediaType := OCIManifestMT, platform := some p }, r.2)

/-- Model of tarball.LayerFromFile followed by newDescriptor (builder.go):
the layer blob digest is sha256 of the gzipped file's bytes, the DiffID is
sha256 of the uncompressed stream, the size is the file size. -/
def layerFromFile (ext : Ext) (tb : List Nat) : ImageLayer :=
  { descriptor := ⟨OCILayerMT, ext.sha256 tb, tb.length, none⟩
  , diffID := ext.sha256 (ext.gunzip tb)
  , compressed := tb }

/-- Model of writeDataLayer (builder.go): dataTar is the data tarball's
bytes; the tarball file is renamed to blobs/sha256 under its digest. -/
def writeDataLayer (ext : Ext) (dataTar : List Nat) :
    ImageLayer × (String × List Nat) :=
  let l := layerFromFile ext dataTar
  (l, (l.descriptor.digest, dataTar))

/-- Model of writeCertsLayer (builder.go), identically shaped. -/
def writeCertsLayer (ext : Ext) (certsTar : List Nat) :
    ImageLayer × (String × List Nat) :=
  let l := layerFromFile ext certsTar
  (l, (l.descriptor.digest, certsTar))

/-- Model of ensureCached followed by writeBaseLayer for each base layer
in order: each layer's compressed bytes land in blob-cache under the
layer's declared digest and are hard-linked into blobs/sha256 under that
digest, skipped when a blob of that name is already present. -/
def addBaseLayers : List RemoteLayer → List (String × List Nat) → List (String × List Nat)
  | [], blobs => blobs
  | l :: rest, blobs =>
    if (blobs.map Prod.fst).contains l.digestHex then addBaseLayers rest blobs
    else addBaseLayers rest (blobs ++ [(l.digestHex, l.compressed)])

/-- A language builder, as containerize consumes it: base-reference
selection, shared and per-platform layers with the blobs they place, and
the config hook.  goPlugin below instantiates it from go_builder.go. -/
structure PluginModel where
  base : String → String
  sharedLayers : List ImageLayer
  sharedBlobs : List (String × List Nat)
  platformLayers : Platform → List ImageLayer
  platformBlobs : Platform → List (String × List Nat)
  configure : Platform → ConfigFile → ConfigFile

/-- Model of the goBuilder plugin (go_builder.go).  exeTar gives, per
platform, the bytes of the gzipped executable tarball built by
goExeTarball around the cross-compiled binary; WritePlatform wraps it in
a layer whose descriptor carries the platform, and renames the tarball to
its blob path.  Base is a pass-through of the custom base reference,
there are no shared layers, and Configure sets the command and appends
the listen address env. -/
def goPlugin (ext : Ext) (exeTar : Platform → List Nat) : PluginModel :=
  { base := fun customImage => customImage
  , sharedLayers := []
  , sharedBlobs := []
  , platformLayers := fun p =>
      let l := layerFromFile ext (exeTar p)
      [{ l with descriptor := { l.descriptor with platform := some p } }]
  , platformBlobs := fun p => [(ext.sha256 (exeTar p), exeTar p)]
  , configure := fun _ cf =>
      { cf with config :=
        { cf.config with
          cmd := ["/func/f"]
          env := cf.config.env ++ ["LISTEN_ADDRESS=[::]:8080"] } } }

/-- Model of pullBase (builder.go): skip when the plugin declares no base
for the job's custom reference, otherwise the registry yields the
platform-filtered base image. -/
def pullBase (plugin : PluginModel) (job : BuildJob)
    (remoteBase : Platform → BaseImage) (p : Platform) : Option BaseImage :=
  if plugin.base job.baseImageRef = "" then none else some (remoteBase p)

/-- The per-platform image produced inside containerize's loop. -/
structure PlatformImage where
  platform : Platform
  config : ConfigFile
  configDesc : Descriptor
  manifest : Manifest
  manifestDesc : Descriptor
deriving DecidableEq, Repr

/-- One iteration of containerize's platform loop (builder.go): write the
plugin's platform layers, pull the base, compose and configure the
config, write config then manifest as JSON blobs.  Returns the grown blob
store and the produced image. -/
def containerizePlatform (ext : Ext) (plugin : PluginModel) (job : BuildJob)
    (remoteBase : Platform → BaseImage) (gitDescribe : Option String)
    (sharedLayers : List ImageLayer) (blobs : List (String × List Nat))
    (p : Platform) : List (String × List Nat) × PlatformImage :=
  let blobs := blobs ++ plugin.platformBlobs p
  let layers := sharedLayers ++ plugin.platformLayers p
  let base := pullBase plugin job remoteBase p
  let blobs :=
    match base with
    | none => blobs
    | some b => addBaseLayers b.layers blobs
  let cf := plugin.configure p (newConfigFile job p base layers gitDescribe)
  let wc := writeConfig ext cf
  let blobs := blobs ++ [wc.2]
  let wm := writeManifest ext p base wc.1 layers
  (blobs ++ [wm.2.2], ⟨p, cf, wc.1, wm.1, wm.2.1⟩)

/-- containerize's loop over the requested platforms. -/
def containerizeLoop (ext : Ext) (plugin : PluginModel) (job : BuildJob)
    (remoteBase : Platform → BaseImage) (gitDescribe : Option String)
    (sharedLayers : List ImageLayer) :
    List Platform → List (String × List Nat) →
      List (String × List Nat) × List PlatformImage
  | [], blobs => (blobs, [])
  | p :: ps, blobs =>
    let r := containerizePlatform ext plugin job remoteBase gitDescribe sharedLayers blobs p
    let rest := containerizeLoop ext plugin job remoteBase gitDescribe sharedLayers ps r.1
    (rest.1, r.2 :: rest.2)

/-- The artifacts containerize leaves in the oci directory: the blob store
(file name, content), the per-platform images, and the index. -/
structure BuildOutput where
  blobs : List (String × List Nat)
  images : List PlatformImage
  index : IndexManifest

/-- Model of containerize (builder.go): write the shared data and certs
layers and the plugin's shared layers, loop over the platforms, and
assemble the image index from the manifest descriptors. -/
def containerize (ext : Ext) (plugin : PluginModel) (job : BuildJob)
    (remoteBase : Platform → BaseImage) (dataTar certsTar : List Nat)
    (gitDescribe : Option String) : BuildOutput :=
  let data := writeDataLayer ext dataTar
  let certs := writeCertsLayer ext certsTar
  let sharedLayers := [data.1, certs.1] ++ plugin.sharedLayers
  let blobs := [data.2, certs.2] ++ plugin.sharedBlobs
  let r := containerizeLoop ext plugin job remoteBase gitDescribe sharedLayers
    job.platforms blobs
  ⟨r.1, r.2, ⟨2, OCIImageIndexMT, r.2.map (fun i => i.manifestDesc)⟩⟩

/-! ## Build-job lifecycle (builder.go Build / setup / cleanup and helpers)

The workspace under RunDataDir/builds is modelled explicitly: the by-pid
entries (whose names are strconv.Itoa of PIDs, so they are carried as
numbers, and whose stored value is the fingerprint their relative target
../by-hash/fingerprint names), the existing by-hash directories, and the
last symlink (carried as the fingerprint its relative target by-hash/fp
names).  The process table contributes two predicates: whether
os.FindProcess resolves a PID (always true on Unix, where Go documents
FindProcess as always succeeding; on Windows the underlying OpenProcess
call fails for nonexistent PIDs), and whether the signal-0 probe
succeeds. -/

/-- The process facts the lifecycle reads: the GOOS = windows flag,
whether os.FindProcess resolves a PID, whether the signal-0 probe finds
it live, and this process's os.Getpid. -/
structure ProcEnv where
  windows : Bool
  findProcessOk : Nat → Bool
  live : Nat → Bool
  selfPid : Nat

/-- The builds workspace state. -/
structure WorkFS where
  pidLinks : List (Nat × String)
  hashDirs : List String
  last : Option String
  pidsDirExists : Bool
  cacheDirExists : Bool
deriving DecidableEq, Repr

/-- Model of processExists (builder.go), in the code's order: a PID that
os.FindProcess cannot resolve is not live (on Windows OpenProcess fails
for nonexistent PIDs); a resolvable PID on windows counts as live with no
further probe; otherwise signal 0 probes the process. -/
def processExists (env : ProcEnv) (pid : Nat) : Bool :=
  if !env.findProcessOk pid then false
  else if env.windows then true
  else env.live pid

/-- Model of isLinkTo (builder.go) applied to a by-pid entry whose link
names fingerprint tf, against the build dir of fingerprint h: both sides
are canonicalized with EvalSymlinks, which fails (yielding false) when
either directory does not exist, and the canonical paths are equal
exactly when the fingerprints are. -/
def pidLinkIsTo (fs : WorkFS) (tf h : String) : Bool :=
  fs.hashDirs.contains tf && fs.hashDirs.contains h && tf == h

/-- Model of isLinkTo (builder.go) applied to the last symlink against the
by-hash directory of fingerprint d. -/
def lastLinkIsTo (fs : WorkFS) (d : String) : Bool :=
  match fs.last with
  | none => false
  | some l => fs.hashDirs.contains l && fs.hashDirs.contains d && l == d

/-- Model of buildJob.isActive (builder.go): some by-pid entry names a
live process and links to this job's build directory. -/
def isActive (env : ProcEnv) (fs : WorkFS) (h : String) : Bool :=
  fs.pidLinks.any (fun e => processExists env e.1 && pidLinkIsTo fs e.2 h)

/-- Errors of the modelled build lifecycle. -/
inductive BuildErr where
  /-- ErrBuildInProgress -/
  | buildInProgress
  /-- os.Symlink failed because by-pid/(self pid) already exists -/
  | symlinkExists
  /-- the scaffold phase failed (or was cancelled) -/
  | scaffoldFailed
  /-- the containerize phase failed (or was cancelled) -/
  | containerizeFailed
deriving DecidableEq, Repr

/-- Model of setup (builder.go): fail with BuildInProgress while the
workspace is untouched if the fingerprint is live; otherwise remove any
existing by-hash tree for this fingerprint and recreate it, ensure
by-pid exists, create the liveness symlink (failing if the path already
exists), and ensure the blob and cache directories.  Returns the error
outcome and the workspace as left behind. -/
def setup (env : ProcEnv) (h : String) (fs : WorkFS) : Option BuildErr × WorkFS :=
  if isActive env fs h then (some .buildInProgress, fs)
  else
    let fs1 := if fs.hashDirs.contains h
      then { fs with hashDirs := fs.hashDirs.erase h } else fs
    let fs2 := { fs1 with hashDirs := fs1.hashDirs ++ [h], pidsDirExists := true }
    if (fs2.pidLinks.map Prod.fst).contains env.selfPid then (some .symlinkExists, fs2)
    else
      (none,
       { fs2 with
         pidLinks := fs2.pidLinks ++ [(env.selfPid, h)]
         cacheDirExists := true })

/-- The second pass of cleanup (builder.go), folded over the snapshot of
by-hash entries os.ReadDir returned: an entry is kept when the last link
resolves to it, or when the current job is active; otherwise it is
removed (errors ignored). -/
def cleanupDirs (env : ProcEnv) (h : String) : List String → WorkFS → WorkFS
  | [], fs => fs
  | d :: ds, fs =>
    let fs1 := if lastLinkIsTo fs d || isActive env fs h then fs
      else { fs with hashDirs := fs.hashDirs.erase d }
    cleanupDirs env h ds fs1

/-- Model of cleanup (builder.go): remove by-pid entries whose process no
longer exists, then walk the by-hash entries.  All errors are ignored;
the function is total. -/
def cleanup (env : ProcEnv) (h : String) (fs : WorkFS) : WorkFS :=
  let fs1 := { fs with pidLinks := fs.pidLinks.filter (fun e => processExists env e.1) }
  cleanupDirs env h fs1.hashDirs fs1

/-- Model of updateLastLink (builder.go): the prior link is removed and a
relative symlink to the current build dir is created; its target text is
filepath.Rel of the builds dir and the build dir, i.e. by-hash/(hash)
(theorem lastLinkRelTarget_eq), carried as the fingerprint. -/
def updateLastLink (h : String) (fs : WorkFS) : WorkFS :=
  { fs with last := some h }

/-- The target text updateLastLink computes for the last symlink:
filepath.Rel of Dir(lastLink path) and the build dir path. -/
def lastLinkRelTarget (root : GoPath) (runDataDir h : String) : Option (List String) :=
  goRel (goDir ⟨root.abs, root.comps ++ [runDataDir, "builds", "last"]⟩)
    ⟨root.abs, root.comps ++ [runDataDir, "builds", "by-hash", h]⟩

/-- Model of Builder.Build (builder.go) from setup onward: cleanup is
deferred once setup succeeds and therefore also runs on scaffold or
containerize failure and on success; the last link is updated only after
all three phases succeeded.  The scaffold and containerize phases are
external to this state (they write inside the build dir), so only their
success is carried. -/
def build (env : ProcEnv) (h : String) (scaffoldOk containerizeOk : Bool)
    (fs : WorkFS) : Option BuildErr × WorkFS :=
  match setup env h fs with
  | (some e, fs1) => (some e, fs1)
  | (none, fs1) =>
    if !scaffoldOk then (some .scaffoldFailed, cleanup env h fs1)
    else if !containerizeOk then (some .containerizeFailed, cleanup env h fs1)
    else (none, cleanup env h (updateLastLink h fs1))

/-! ## Lifecycle lemmas -/

/-- A path component that survives Clean unchanged. -/
def plainComp (s : String) : Bool := !(s == "" || s == "." || s == "..")

theorem cleanAux_plain (abs : Bool) (cs : List String)
    (hcs : ∀ c ∈ cs, plainComp c = true) :
    ∀ acc : List String, cleanAux abs acc cs = acc.reverse ++ cs := by
  induction cs with
  | nil => intro acc; simp [cleanAux]
  | cons c rest ih =>
    intro acc
    have hc := hcs c (List.mem_cons_self c rest)
    have hrest : ∀ x ∈ rest, plainComp x = true :=
      fun x hx => hcs x (List.mem_cons_of_mem c hx)
    have h1 : ¬(c = "" ∨ c = ".") := by
      intro hor
      rcases hor with h | h <;> simp [plainComp, h] at hc
    have h2 : c ≠ ".." := by
      intro h; simp [plainComp, h] at hc
    simp only [cleanAux, if_neg h1, if_neg h2]
    rw [ih hrest (c :: acc)]
    simp

theorem stripCommon_append (t : List String) :
    ∀ l : List String, stripCommon l (l ++ t) = ([], t) := by
  intro l
  induction l with
  | nil => cases t <;> simp [stripCommon]
  | cons a as ih => simpa [stripCommon] using ih

theorem cleanupDirs_last (env : ProcEnv) (h : String) :
    ∀ (ds : List String) (fs : WorkFS), (cleanupDirs env h ds fs).last = fs.last := by
  intro ds
  induction ds with
  | nil => intro fs; rfl
  | cons d rest ih =>
    intro fs
    rw [cleanupDirs]
    split <;> simp [ih]

theorem cleanup_last (env : ProcEnv) (h : String) (fs : WorkFS) :
    (cleanup env h fs).last = fs.last := by
  unfold cleanup
  rw [cleanupDirs_last]

theorem setup_snd_last (env : ProcEnv) (h : String) (fs : WorkFS) :
    (setup env h fs).2.last = fs.last := by
  unfold setup
  repeat' first
  | rfl
  | split
  | dsimp only

/-- The trichotomy of validatedLinkTarget for paths under an absolute
project root: absolute targets are rejected, targets whose resolution is
outside the root are rejected, all others are returned verbatim. -/
theorem validatedLinkTarget_cases (root path tgt : GoPath)
    (hroot : root.abs = true) (hpath : path.abs = true) :
    (tgt.abs = true → validatedLinkTarget root path tgt = .error .absoluteLink)
    ∧ (tgt.abs = false →
        ((goRel root (goJoin (goDir path) tgt)).getD []).head? = some ".." →
        validatedLinkTarget root path tgt = .error .linkEscapesRoot)
    ∧ (tgt.abs = false →
        ((goRel root (goJoin (goDir path) tgt)).getD []).head? ≠ some ".." →
        validatedLinkTarget root path tgt = .ok tgt) := by
  have hjabs : (goJoin (goDir path) tgt).abs = true := by
    simp [goJoin, goDir, GoPath.clean, hpath]
  obtain ⟨r, hr⟩ := goRel_abs_some root (goJoin (goDir path) tgt) hroot hjabs
  refine ⟨fun habs => by simp [validatedLinkTarget, habs], ?_, ?_⟩
  · intro habs hhead
    rw [hr] at hhead
    simp only [Option.getD_some] at hhead
    simp only [validatedLinkTarget, habs, Bool.false_eq_true, if_false]
    rw [hr]
    simp [hhead]
  · intro habs hhead
    rw [hr] at hhead
    simp only [Option.getD_some] at hhead
    simp only [validatedLinkTarget, habs, Bool.false_eq_true, if_false]
    rw [hr]
    simp [hhead]

/-! ## Claim theorems -/

/-- C6: during creation of the source data tarball, for every symlink
encountered in the project tree (here reaching the walk callback at
relative path relComps, not matching the ignore set): if its raw target
is an absolute path the build fails with the AbsoluteLink error;
otherwise, if the target resolved against the link's directory, taken
relative to the project root, begins with a parent-traversal component,
the build fails with LinkEscapesRoot; otherwise a tar symlink entry is
emitted carrying the original (relative) target string. -/
theorem dataTarball_symlink_policy (root : GoPath) (relComps : List String)
    (n : String) (fi : FInfo) (tgt : GoPath) (hroot : root.abs = true)
    (hig : n ∉ defaultIgnored) :
    (tgt.abs = true →
      walkNode root relComps (.symlink n fi tgt) = .error .absoluteLink)
    ∧ (tgt.abs = false →
        ((goRel root (goJoin (goDir ⟨root.abs, root.comps ++ relComps⟩) tgt)).getD
          []).head? = some ".." →
        walkNode root relComps (.symlink n fi tgt) = .error .linkEscapesRoot)
    ∧ (tgt.abs = false →
        ((goRel root (goJoin (goDir ⟨root.abs, root.comps ++ relComps⟩) tgt)).getD
          []).head? ≠ some ".." →
        walkNode root relComps (.symlink n fi tgt)
          = .ok [⟨entryName relComps, .symlink, some tgt, DefaultUid, DefaultGid,
                  fi.mode⟩]) := by
  have hpath : (GoPath.mk root.abs (root.comps ++ relComps)).abs = true := hroot
  obtain ⟨h1, h2, h3⟩ :=
    validatedLinkTarget_cases root ⟨root.abs, root.comps ++ relComps⟩ tgt hroot hpath
  refine ⟨fun habs => ?_, fun habs hhead => ?_, fun habs hhead => ?_⟩
  · simp [walkNode, hig, h1 habs]
  · simp [walkNode, hig, h2 habs hhead]
  · simp [walkNode, hig, h3 habs hhead]

/-- Witness for C6 at concrete inputs: an absolute target, an escaping
target, and an in-root target under the project root /p. -/
theorem dataTarball_symlink_policy_witness :
    walkNode ⟨true, ["p"]⟩ ["a"]
        (.symlink "a" ⟨1, 1, 420⟩ ⟨true, ["etc", "passwd"]⟩) = .error .absoluteLink
    ∧ walkNode ⟨true, ["p"]⟩ ["a"]
        (.symlink "a" ⟨1, 1, 420⟩ ⟨false, ["..", "c"]⟩) = .error .linkEscapesRoot
    ∧ walkNode ⟨true, ["p"]⟩ ["a"]
        (.symlink "a" ⟨1, 1, 420⟩ ⟨false, ["b"]⟩)
      = .ok [⟨entryName ["a"], .symlink, some ⟨false, ["b"]⟩, DefaultUid, DefaultGid,
              420⟩] :=
  ⟨(dataTarball_symlink_policy ⟨true, ["p"]⟩ ["a"] "a" ⟨1, 1, 420⟩
      ⟨true, ["etc", "passwd"]⟩ rfl (by decide)).1 rfl,
   (dataTarball_symlink_policy ⟨true, ["p"]⟩ ["a"] "a" ⟨1, 1, 420⟩
      ⟨false, ["..", "c"]⟩ rfl (by decide)).2.1 rfl (by decide),
   (dataTarball_symlink_policy ⟨true, ["p"]⟩ ["a"] "a" ⟨1, 1, 420⟩
      ⟨false, ["b"]⟩ rfl (by decide)).2.2 rfl (by decide)⟩

/-- C5 counterexample: the claim says that on Windows every numeric PID
is treated as live, so with by-pid/5 linking to by-hash/a it predicts
that setup for fingerprint a fails with BuildInProgress; but
processExists consults os.FindProcess first, and on Windows its
OpenProcess call fails for the nonexistent PID 5, so the attempt is not
considered live and setup proceeds past the liveness check. -/
theorem setup_windows_dead_pid_not_live :
    processExists ⟨true, fun _ => false, fun _ => true, 99⟩ 5 = false
    ∧ (setup ⟨true, fun _ => false, fun _ => true, 99⟩ "a"
        ⟨[(5, "a")], ["a"], none, true, true⟩).1 ≠ some .buildInProgress := by
  decide

/-- C5 as amended: setup fails with BuildInProgress — with the workspace
still untouched, before the by-hash tree for this fingerprint is removed
or recreated — exactly when some by-pid entry names a live process and
its link resolves (canonical-path comparison, both directories existing)
to this fingerprint's build directory; a PID counts as live when
os.FindProcess resolves it (always on Unix, only when OpenProcess
succeeds on Windows) and, on windows, that resolution alone suffices
with no signal probe, while elsewhere the signal-0 probe must also
succeed. -/
theorem setup_buildInProgress_iff (env : ProcEnv) (h : String) (fs : WorkFS) :
    ((setup env h fs).1 = some .buildInProgress ↔
      ∃ e ∈ fs.pidLinks, processExists env e.1 = true ∧ pidLinkIsTo fs e.2 h = true)
    ∧ ((setup env h fs).1 = some .buildInProgress → (setup env h fs).2 = fs)
    ∧ (∀ pid, processExists env pid
        = (env.findProcessOk pid && (env.windows || env.live pid))) := by
  have hiff : isActive env fs h = true ↔
      ∃ e ∈ fs.pidLinks, processExists env e.1 = true ∧ pidLinkIsTo fs e.2 h = true := by
    simp [isActive, List.any_eq_true, Bool.and_eq_true]
  have hfst : ¬ isActive env fs h = true →
      (setup env h fs).1 ≠ some .buildInProgress := by
    intro ha
    unfold setup
    rw [if_neg ha]
    dsimp only
    split <;> split <;> simp
  refine ⟨?_, ?_, ?_⟩
  · constructor
    · intro heq
      by_cases ha : isActive env fs h
      · exact hiff.mp ha
      · exact absurd heq (hfst ha)
    · intro hex
      have ha := hiff.mpr hex
      simp [setup, ha]
  · intro heq
    by_cases ha : isActive env fs h
    · simp [setup, ha]
    · exact absurd heq (hfst ha)
  · intro pid
    unfold processExists
    cases hfp : env.findProcessOk pid <;> cases hw : env.windows <;> simp [hfp, hw]

/-- Witness for C5: a single live by-pid entry linking to the build dir
of the same fingerprint makes setup fail with BuildInProgress. -/
theorem setup_buildInProgress_iff_witness :
    (setup ⟨false, fun _ => true, fun p => p == 7, 8⟩ "a"
        ⟨[(7, "a")], ["a"], none, true, true⟩).1 = some .buildInProgress :=
  (setup_buildInProgress_iff ⟨false, fun _ => true, fun p => p == 7, 8⟩ "a"
      ⟨[(7, "a")], ["a"], none, true, true⟩).1.mpr
    ⟨(7, "a"), by decide, by decide, by decide⟩

/-- C4: evaluation of cleanup on the workspace of a running job (pid 7 on
fingerprint aaa, the situation in which the deferred cleanup always runs,
since Build defers it only after setup created this process's live
by-pid link).  The dead by-pid entry 9 is removed and errors are
swallowed, as the claim says; but the by-hash entry bbb — which is
neither the target of last nor backed by any live by-pid link — is
retained, because the second pass tests whether the *current job* is
active (buildJob.isActive) rather than whether the directory being
examined is backed by a live link, contradicting the removal condition
the claim (and the code's own comment above the loop) states. -/
theorem cleanup_keeps_unbacked_hashDir :
    cleanup ⟨false, fun _ => true, fun p => p == 7, 7⟩ "aaa"
        ⟨[(9, "zzz"), (7, "aaa")], ["aaa", "bbb"], some "aaa", true, true⟩
      = ⟨[(7, "aaa")], ["aaa", "bbb"], some "aaa", true, true⟩ := by
  decide

/-- C10: from a quiescent workspace, a successful build by a live process
leaves its by-pid liveness link in place (the deferred cleanup only reaps
dead PIDs); every subsequent Build by the same still-live process on the
same fingerprint then fails with BuildInProgress leaving the workspace
untouched — the process's own surviving link satisfies the liveness
check — and on a different fingerprint it fails with the symlink-creation
error, since by-pid/(pid) already exists when setup creates it. -/
theorem second_build_same_process (pid : Nat) (h1 h2 : String) (hne : h2 ≠ h1)
    (live : Nat → Bool) (hlive : live pid = true) (s c : Bool) :
    build ⟨false, fun _ => true, live, pid⟩ h1 true true ⟨[], [], none, false, false⟩
      = (none, ⟨[(pid, h1)], [h1], some h1, true, true⟩)
    ∧ (build ⟨false, fun _ => true, live, pid⟩ h1 s c
        ⟨[(pid, h1)], [h1], some h1, true, true⟩).1 = some .buildInProgress
    ∧ (build ⟨false, fun _ => true, live, pid⟩ h1 s c
        ⟨[(pid, h1)], [h1], some h1, true, true⟩).2
      = ⟨[(pid, h1)], [h1], some h1, true, true⟩
    ∧ (build ⟨false, fun _ => true, live, pid⟩ h2 s c
        ⟨[(pid, h1)], [h1], some h1, true, true⟩).1 = some .symlinkExists := by
  have hb12 : (h1 == h2) = false := beq_eq_false_iff_ne.mpr (Ne.symm hne)
  refine ⟨?_, ?_, ?_, ?_⟩
  · simp [build, setup, isActive, cleanup, cleanupDirs, lastLinkIsTo, pidLinkIsTo,
      processExists, updateLastLink, hlive]
  · simp [build, setup, isActive, pidLinkIsTo, processExists, hlive]
  · simp [build, setup, isActive, pidLinkIsTo, processExists, hlive]
  · simp [build, setup, isActive, pidLinkIsTo, processExists, hlive, hb12]

/-- Witness for C10 with process 42 and fingerprints h1, h2. -/
theorem second_build_same_process_witness :
    build ⟨false, fun _ => true, fun p => p == 42, 42⟩ "h1" true true ⟨[], [], none, false, false⟩
      = (none, ⟨[(42, "h1")], ["h1"], some "h1", true, true⟩)
    ∧ (build ⟨false, fun _ => true, fun p => p == 42, 42⟩ "h1" true true
        ⟨[(42, "h1")], ["h1"], some "h1", true, true⟩).1 = some .buildInProgress :=
  ⟨(second_build_same_process 42 "h1" "h2" (by decide) (fun p => p == 42)
      (by decide) true true).1,
   (second_build_same_process 42 "h1" "h2" (by decide) (fun p => p == 42)
      (by decide) true true).2.1⟩

/-- C8: the last symlink is updated only after setup, scaffold and
containerize all succeeded: on any failure (including cancellation
surfacing as a phase failure) it retains its previous value, and on full
success it is replaced by a symlink carried as the current fingerprint,
whose relative target text — filepath.Rel of the builds directory and the
build directory — is by-hash/(fingerprint). -/
theorem build_last_link (env : ProcEnv) (h : String)
    (scaffoldOk containerizeOk : Bool) (fs : WorkFS) (root : GoPath)
    (runDataDir : String) (hroot : ∀ c ∈ root.comps, plainComp c = true)
    (hrdd : plainComp runDataDir = true) (hh : plainComp h = true) :
    ((build env h scaffoldOk containerizeOk fs).1 ≠ none →
      (build env h scaffoldOk containerizeOk fs).2.last = fs.last)
    ∧ ((build env h scaffoldOk containerizeOk fs).1 = none →
      (build env h scaffoldOk containerizeOk fs).2.last = some h)
    ∧ lastLinkRelTarget root runDataDir h = some ["by-hash", h] := by
  have hplain1 : ∀ c ∈ root.comps ++ [runDataDir, "builds"], plainComp c = true := by
    intro c hc
    rcases List.mem_append.mp hc with hc | hc
    · exact hroot c hc
    · simp only [List.mem_cons, List.not_mem_nil, or_false] at hc
      rcases hc with rfl | rfl
      · exact hrdd
      · decide
  have hplain2 : ∀ c ∈ root.comps ++ [runDataDir, "builds", "by-hash", h],
      plainComp c = true := by
    intro c hc
    rcases List.mem_append.mp hc with hc | hc
    · exact hroot c hc
    · simp only [List.mem_cons, List.not_mem_nil, or_false] at hc
      rcases hc with rfl | rfl | rfl | rfl
      · exact hrdd
      · decide
      · decide
      · exact hh
  have hrel : lastLinkRelTarget root runDataDir h = some ["by-hash", h] := by
    have hdrop : (root.comps ++ [runDataDir, "builds", "last"]).dropLast
        = root.comps ++ [runDataDir, "builds"] := by
      have he : root.comps ++ [runDataDir, "builds", "last"]
          = (root.comps ++ [runDataDir, "builds"]) ++ ["last"] := by simp
      rw [he, List.dropLast_concat]
    have hb : cleanAux root.abs [] (root.comps ++ [runDataDir, "builds"])
        = root.comps ++ [runDataDir, "builds"] := by
      simpa using cleanAux_plain root.abs _ hplain1 []
    have hb2 : cleanAux root.abs [] (root.comps ++ [runDataDir, "builds", "by-hash", h])
        = root.comps ++ [runDataDir, "builds", "by-hash", h] := by
      simpa using cleanAux_plain root.abs _ hplain2 []
    have hsc : stripCommon (root.comps ++ [runDataDir, "builds"])
        (root.comps ++ [runDataDir, "builds", "by-hash", h]) = ([], ["by-hash", h]) := by
      simpa using stripCommon_append ["by-hash", h] (root.comps ++ [runDataDir, "builds"])
    unfold lastLinkRelTarget goRel goDir GoPath.clean
    simp only [hdrop, hb, hb2, hsc]
    simp
  refine ⟨?_, ?_, hrel⟩
  · intro hne
    rcases hst : setup env h fs with ⟨e?, fs1⟩
    have hl1 : fs1.last = fs.last := by
      have := setup_snd_last env h fs
      rw [hst] at this
      exact this
    cases e? with
    | some e => simp [build, hst, hl1]
    | none =>
      cases scaffoldOk with
      | false => simp [build, hst, cleanup_last, hl1]
      | true =>
        cases containerizeOk with
        | false => simp [build, hst, cleanup_last, hl1]
        | true => simp [build, hst] at hne
  · intro hok
    rcases hst : setup env h fs with ⟨e?, fs1⟩
    cases e? with
    | some e => simp [build, hst] at hok
    | none =>
      cases scaffoldOk with
      | false => simp [build, hst] at hok
      | true =>
        cases containerizeOk with
        | false => simp [build, hst] at hok
        | true => simp [build, hst, cleanup_last, updateLastLink]

/-- Witness for C8: a concrete successful build updates last to the new
fingerprint, and the relative link target under project root
/home/u/proj with run-data dir .func is by-hash/hh. -/
theorem build_last_link_witness :
    (build ⟨false, fun _ => true, fun p => p == 3, 3⟩ "hh" true true
        ⟨[], [], none, false, false⟩).2.last = some "hh"
    ∧ lastLinkRelTarget ⟨true, ["home", "u", "proj"]⟩ ".func" "hh"
      = some ["by-hash", "hh"] :=
  ⟨(build_last_link ⟨false, fun _ => true, fun p => p == 3, 3⟩ "hh" true true
      ⟨[], [], none, false, false⟩ ⟨true, ["home", "u", "proj"]⟩ ".func"
      (by decide) (by decide) (by decide)).2.1 (by decide),
   (build_last_link ⟨false, fun _ => true, fun p => p == 3, 3⟩ "hh" true true
      ⟨[], [], none, false, false⟩ ⟨true, ["home", "u", "proj"]⟩ ".func"
      (by decide) (by decide) (by decide)).2.2⟩

/-- C7: when a base image is present, the produced config's user equals
the base's user whenever that is non-empty and 1000:1000 otherwise; and
the base's env list, history entries and rootfs diffIDs are each
prepended, in base order, before the build's own env list, single history
entry and new-layer diffIDs. -/
theorem newConfigFile_base_merge (job : BuildJob) (p : Platform) (b : BaseImage)
    (imageLayers : List ImageLayer) (gitDescribe : Option String) :
    (newConfigFile job p (some b) imageLayers gitDescribe).config.user
      = (if b.config.user = "" then "1000:1000" else b.config.user)
    ∧ (newConfigFile job p (some b) imageLayers gitDescribe).config.env
      = b.config.env ++ newConfigEnvs job gitDescribe
    ∧ (newConfigFile job p (some b) imageLayers gitDescribe).history
      = b.config.history ++ [⟨"func", job.start, "func host builder", true⟩]
    ∧ (newConfigFile job p (some b) imageLayers gitDescribe).rootFS.diffIDs
      = b.config.diffIDs ++ imageLayers.map (fun l => l.diffID) := by
  refine ⟨?_, rfl, rfl, rfl⟩
  by_cases hu : b.config.user = "" <;> simp [newConfigFile, hu]

/-- C3 counterexample: the claim asserts every tar entry of the Go
plugin's executable tarball carries uid/gid 1000, but goExeTarball never
overrides ownership, so a compiled binary stat-ing as root (uid 0, gid 0)
yields an entry owned by uid/gid 0. -/
theorem goExeTarball_owner_not_default :
    ¬ ((goExeTarball ⟨0, 0, 493⟩).uid = 1000 ∧ (goExeTarball ⟨0, 0, 493⟩).gid = 1000) := by
  decide

/-- C3 as amended: every entry of the source data tarball and of the
certificates tarball has uid 1000 and gid 1000; the executable tarball's
entry instead keeps the uid/gid of the compiled binary's FileInfo, which
goExeTarball does not override. -/
theorem tarball_owner_amended (root : GoPath) (tree : Node) (es : List TarEntry)
    (e c : TarEntry) (fi bi : FInfo) (hw : newDataTarball root tree = .ok es)
    (hmem : e ∈ es) (hc : c ∈ newCertsTarball fi) :
    (e.uid = 1000 ∧ e.gid = 1000)
    ∧ (c.uid = 1000 ∧ c.gid = 1000)
    ∧ ((goExeTarball bi).uid = bi.uid ∧ (goExeTarball bi).gid = bi.gid) := by
  refine ⟨walkNode_owner root [] tree es hw e hmem, ?_, rfl, rfl⟩
  rcases List.mem_map.mp hc with ⟨pth, _, rfl⟩
  exact ⟨rfl, rfl⟩

/-- Witness for the amended C3 on a concrete two-entry project tree, a
certs entry, and a root-owned binary. -/
theorem tarball_owner_amended_witness :
    ((⟨"/func/a.txt", .file, none, 1000, 1000, 420⟩ : TarEntry).uid = 1000
      ∧ (⟨"/func/a.txt", .file, none, 1000, 1000, 420⟩ : TarEntry).gid = 1000)
    ∧ ((⟨"/etc/ssl/certs/ca-certificates.crt", .file, none, 1000, 1000, 420⟩ :
          TarEntry).uid = 1000
      ∧ (⟨"/etc/ssl/certs/ca-certificates.crt", .file, none, 1000, 1000, 420⟩ :
          TarEntry).gid = 1000)
    ∧ ((goExeTarball ⟨0, 0, 493⟩).uid = (0 : Int)
      ∧ (goExeTarball ⟨0, 0, 493⟩).gid = (0 : Int)) :=
  tarball_owner_amended ⟨true, ["p"]⟩
    (.dir "p" ⟨5, 6, 493⟩ [.file "a.txt" ⟨5, 6, 420⟩])
    [⟨"/func", .dir, none, 1000, 1000, 493⟩,
     ⟨"/func/a.txt", .file, none, 1000, 1000, 420⟩]
    ⟨"/func/a.txt", .file, none, 1000, 1000, 420⟩
    ⟨"/etc/ssl/certs/ca-certificates.crt", .file, none, 1000, 1000, 420⟩
    ⟨5, 6, 420⟩ ⟨0, 0, 493⟩ (by decide) (by decide) (by decide)

/-! ## Containerize loop lemmas -/

/-- The image containerize produces for a platform; it does not depend on
the blob store already accumulated. -/
def platformImageOf (ext : Ext) (plugin : PluginModel) (job : BuildJob)
    (remoteBase : Platform → BaseImage) (gitDescribe : Option String)
    (sharedLayers : List ImageLayer) (p : Platform) : PlatformImage :=
  (containerizePlatform ext plugin job remoteBase gitDescribe sharedLayers [] p).2

theorem containerizePlatform_snd (ext : Ext) (plugin : PluginModel) (job : BuildJob)
    (remoteBase : Platform → BaseImage) (gitDescribe : Option String)
    (sharedLayers : List ImageLayer) (blobs : List (String × List Nat))
    (p : Platform) :
    (containerizePlatform ext plugin job remoteBase gitDescribe sharedLayers blobs p).2
      = platformImageOf ext plugin job remoteBase gitDescribe sharedLayers p := rfl

theorem containerizeLoop_images (ext : Ext) (plugin : PluginModel) (job : BuildJob)
    (remoteBase : Platform → BaseImage) (gitDescribe : Option String)
    (sharedLayers : List ImageLayer) :
    ∀ (ps : List Platform) (blobs : List (String × List Nat)) (img : PlatformImage),
      img ∈ (containerizeLoop ext plugin job remoteBase gitDescribe sharedLayers
        ps blobs).2 →
      ∃ p ∈ ps,
        img = platformImageOf ext plugin job remoteBase gitDescribe sharedLayers p := by
  intro ps
  induction ps with
  | nil =>
    intro blobs img h
    simp [containerizeLoop] at h
  | cons p ps ih =>
    intro blobs img h
    dsimp only [containerizeLoop] at h
    rcases List.mem_cons.mp h with rfl | h2
    · exact ⟨p, List.mem_cons_self p ps,
        (containerizePlatform_snd ext plugin job remoteBase gitDescribe sharedLayers
          blobs p).symm ▸ rfl⟩
    · obtain ⟨q, hq, heq⟩ := ih _ img h2
      exact ⟨q, List.mem_cons_of_mem p hq, heq⟩

/-- C9: for every build with the Go plugin and every produced image, the
config env list is, in order after any base envs: FUNC_CREATED at the job
start's RFC 3339 rendering, then FUNC_VERSION holding the trimmed output
of the git describe subprocess — or the empty value when that subprocess
fails, the failure being recovered rather than fatal (the model is total
in that case) — then the function-declared envs, then the Go plugin's
appended LISTEN_ADDRESS. -/
theorem config_env_order (ext : Ext) (job : BuildJob)
    (remoteBase : Platform → BaseImage) (dataTar certsTar : List Nat)
    (exeTar : Platform → List Nat) (gitDescribe : Option String)
    (img : PlatformImage)
    (hmem : img ∈ (containerize ext (goPlugin ext exeTar) job remoteBase dataTar
      certsTar gitDescribe).images) :
    img.config.config.env
      = (match pullBase (goPlugin ext exeTar) job remoteBase img.platform with
         | none => []
         | some b => b.config.env)
        ++ ["FUNC_CREATED=" ++ job.start.rfc3339,
            match gitDescribe with
            | none => "FUNC_VERSION="
            | some out => "FUNC_VERSION=" ++ out.trim]
        ++ job.fnEnvs ++ ["LISTEN_ADDRESS=[::]:8080"] := by
  dsimp only [containerize] at hmem
  obtain ⟨p, _, rfl⟩ := containerizeLoop_images ext (goPlugin ext exeTar) job
    remoteBase gitDescribe _ job.platforms _ img hmem
  cases hb : pullBase (goPlugin ext exeTar) job remoteBase p with
  | none =>
    simp only [platformImageOf, containerizePlatform, hb]
    cases gitDescribe <;> simp [goPlugin, newConfigFile, newConfigEnvs]
  | some b =>
    simp only [platformImageOf, containerizePlatform, hb]
    cases gitDescribe <;> simp [goPlugin, newConfigFile, newConfigEnvs]

/-- Witness for C9: the single produced image for a one-platform Go build
with a base whose env is E0=x. -/
theorem config_env_order_witness :
    ((containerize ⟨fun _ => "h", id, fun _ => [], fun _ => []⟩
        (goPlugin ⟨fun _ => "h", id, fun _ => [], fun _ => []⟩ (fun _ => [3]))
        ⟨⟨"t0"⟩, "f0", ["A=1"], [], "debian", [⟨"linux", "amd64", "", ""⟩]⟩
        (fun _ => ⟨[], [⟨"h", [9]⟩], ⟨["E0=x"], "", [], []⟩⟩) [1] [2]
        none).images.headD
      ⟨⟨"", "", "", ""⟩, ⟨⟨""⟩, "", "", "", "", ⟨[], [], [], "", "", "", []⟩, [], ⟨"", []⟩⟩,
       ⟨"", "", 0, none⟩, ⟨0, "", ⟨"", "", 0, none⟩, []⟩, ⟨"", "", 0, none⟩⟩).config.config.env
      = (match pullBase
            (goPlugin ⟨fun _ => "h", id, fun _ => [], fun _ => []⟩ (fun _ => [3]))
            ⟨⟨"t0"⟩, "f0", ["A=1"], [], "debian", [⟨"linux", "amd64", "", ""⟩]⟩
            (fun _ => ⟨[], [⟨"h", [9]⟩], ⟨["E0=x"], "", [], []⟩⟩)
            ((containerize ⟨fun _ => "h", id, fun _ => [], fun _ => []⟩
                (goPlugin ⟨fun _ => "h", id, fun _ => [], fun _ => []⟩ (fun _ => [3]))
                ⟨⟨"t0"⟩, "f0", ["A=1"], [], "debian", [⟨"linux", "amd64", "", ""⟩]⟩
                (fun _ => ⟨[], [⟨"h", [9]⟩], ⟨["E0=x"], "", [], []⟩⟩) [1] [2]
                none).images.headD
              ⟨⟨"", "", "", ""⟩, ⟨⟨""⟩, "", "", "", "", ⟨[], [], [], "", "", "", []⟩, [],
                ⟨"", []⟩⟩, ⟨"", "", 0, none⟩, ⟨0, "", ⟨"", "", 0, none⟩, []⟩,
               ⟨"", "", 0, none⟩⟩).platform with
         | none => []
         | some b => b.config.env)
        ++ ["FUNC_CREATED=" ++ (GoTime.mk "t0").rfc3339,
            match (none : Option String) with
            | none => "FUNC_VERSION="
            | some out => "FUNC_VERSION=" ++ out.trim]
        ++ ["A=1"] ++ ["LISTEN_ADDRESS=[::]:8080"] :=
  config_env_order ⟨fun _ => "h", id, fun _ => [], fun _ => []⟩
    ⟨⟨"t0"⟩, "f0", ["A=1"], [], "debian", [⟨"linux", "amd64", "", ""⟩]⟩
    (fun _ => ⟨[], [⟨"h", [9]⟩], ⟨["E0=x"], "", [], []⟩⟩) [1] [2] (fun _ => [3]) none
    _ (by decide)

/-- C2: for every successful build (of any plugin whose config hook
leaves rootfs untouched, as the Go plugin's does) and every produced
image, the manifest's layer list is, in order: the base image's layers
in base order when a base is present, then the data layer, the
certificates layer, the plugin's shared layers, and the plugin's
platform-specific layers; and that image's config lists rootfs.diffIDs
equal, in the same order, to the diffIDs of exactly those layers, base
diffIDs first. -/
theorem manifest_layer_order (ext : Ext) (plugin : PluginModel) (job : BuildJob)
    (remoteBase : Platform → BaseImage) (dataTar certsTar : List Nat)
    (gitDescribe : Option String) (img : PlatformImage)
    (hconf : ∀ p cf, (plugin.configure p cf).rootFS = cf.rootFS)
    (hmem : img ∈ (containerize ext plugin job remoteBase dataTar certsTar
      gitDescribe).images) :
    img.manifest.layers
      = (match pullBase plugin job remoteBase img.platform with
         | none => []
         | some b => b.manifestLayers)
        ++ [(writeDataLayer ext dataTar).1.descriptor,
            (writeCertsLayer ext certsTar).1.descriptor]
        ++ plugin.sharedLayers.map (fun l => l.descriptor)
        ++ (plugin.platformLayers img.platform).map (fun l => l.descriptor)
    ∧ img.config.rootFS.diffIDs
      = (match pullBase plugin job remoteBase img.platform with
         | none => []
         | some b => b.config.diffIDs)
        ++ [(writeDataLayer ext dataTar).1.diffID,
            (writeCertsLayer ext certsTar).1.diffID]
        ++ plugin.sharedLayers.map (fun l => l.diffID)
        ++ (plugin.platformLayers img.platform).map (fun l => l.diffID) := by
  dsimp only [containerize] at hmem
  obtain ⟨p, _, rfl⟩ := containerizeLoop_images ext plugin job remoteBase gitDescribe
    _ job.platforms _ img hmem
  constructor
  · cases hb : pullBase plugin job remoteBase p with
    | none =>
      simp only [platformImageOf, containerizePlatform, hb]
      simp [writeManifest]
    | some b =>
      simp only [platformImageOf, containerizePlatform, hb]
      simp [writeManifest]
  · cases hb : pullBase plugin job remoteBase p with
    | none =>
      simp only [platformImageOf, containerizePlatform, hb]
      simp [hconf, newConfigFile]
    | some b =>
      simp only [platformImageOf, containerizePlatform, hb]
      simp [hconf, newConfigFile]

/-- Witness for C2: the single image of a one-platform Go build with a
one-layer base image. -/
theorem manifest_layer_order_witness :
    (((containerize ⟨fun _ => "h", id, fun _ => [], fun _ => []⟩
        (goPlugin ⟨fun _ => "h", id, fun _ => [], fun _ => []⟩ (fun _ => [3]))
        ⟨⟨"t0"⟩, "f0", ["A=1"], [], "debian", [⟨"linux", "amd64", "", ""⟩]⟩
        (fun _ => ⟨[⟨OCILayerMT, "bd", 2, none⟩], [⟨"h", [9]⟩], ⟨["E0=x"], "", [], ["bdiff"]⟩⟩)
        [1] [2] none).images.headD
      ⟨⟨"", "", "", ""⟩, ⟨⟨""⟩, "", "", "", "", ⟨[], [], [], "", "", "", []⟩, [], ⟨"", []⟩⟩,
       ⟨"", "", 0, none⟩, ⟨0, "", ⟨"", "", 0, none⟩, []⟩, ⟨"", "", 0, none⟩⟩).manifest.layers
      = [⟨OCILayerMT, "bd", 2, none⟩, ⟨OCILayerMT, "h", 1, none⟩, ⟨OCILayerMT, "h", 1, none⟩,
         ⟨OCILayerMT, "h", 1, some ⟨"linux", "amd64", "", ""⟩⟩])
    ∧ (((containerize ⟨fun _ => "h", id, fun _ => [], fun _ => []⟩
        (goPlugin ⟨fun _ => "h", id, fun _ => [], fun _ => []⟩ (fun _ => [3]))
        ⟨⟨"t0"⟩, "f0", ["A=1"], [], "debian", [⟨"linux", "amd64", "", ""⟩]⟩
        (fun _ => ⟨[⟨OCILayerMT, "bd", 2, none⟩], [⟨"h", [9]⟩], ⟨["E0=x"], "", [], ["bdiff"]⟩⟩)
        [1] [2] none).images.headD
      ⟨⟨"", "", "", ""⟩, ⟨⟨""⟩, "", "", "", "", ⟨[], [], [], "", "", "", []⟩, [], ⟨"", []⟩⟩,
       ⟨"", "", 0, none⟩, ⟨0, "", ⟨"", "", 0, none⟩, []⟩, ⟨"", "", 0, none⟩⟩).config.rootFS.diffIDs
      = ["bdiff", "h", "h", "h"]) := by
  have h := manifest_layer_order ⟨fun _ => "h", id, fun _ => [], fun _ => []⟩
    (goPlugin ⟨fun _ => "h", id, fun _ => [], fun _ => []⟩ (fun _ => [3]))
    ⟨⟨"t0"⟩, "f0", ["A=1"], [], "debian", [⟨"linux", "amd64", "", ""⟩]⟩
    (fun _ => ⟨[⟨OCILayerMT, "bd", 2, none⟩], [⟨"h", [9]⟩], ⟨["E0=x"], "", [], ["bdiff"]⟩⟩)
    [1] [2] none
    (((containerize ⟨fun _ => "h", id, fun _ => [], fun _ => []⟩
        (goPlugin ⟨fun _ => "h", id, fun _ => [], fun _ => []⟩ (fun _ => [3]))
        ⟨⟨"t0"⟩, "f0", ["A=1"], [], "debian", [⟨"linux", "amd64", "", ""⟩]⟩
        (fun _ => ⟨[⟨OCILayerMT, "bd", 2, none⟩], [⟨"h", [9]⟩], ⟨["E0=x"], "", [], ["bdiff"]⟩⟩)
        [1] [2] none).images.headD
      ⟨⟨"", "", "", ""⟩, ⟨⟨""⟩, "", "", "", "", ⟨[], [], [], "", "", "", []⟩, [], ⟨"", []⟩⟩,
       ⟨"", "", 0, none⟩, ⟨0, "", ⟨"", "", 0, none⟩, []⟩, ⟨"", "", 0, none⟩⟩))
    (fun _ _ => rfl) (by decide)
  exact ⟨by rw [h.1]; decide, by rw [h.2]; decide⟩

/-! ## Blob naming lemmas -/

theorem addBaseLayers_named (ext : Ext) :
    ∀ (ls : List RemoteLayer) (blobs : List (String × List Nat)),
      (∀ l ∈ ls, l.digestHex = ext.sha256 l.compressed) →
      (∀ e ∈ blobs, e.1 = ext.sha256 e.2) →
      ∀ e ∈ addBaseLayers ls blobs, e.1 = ext.sha256 e.2 := by
  intro ls
  induction ls with
  | nil =>
    intro blobs _ hb e he
    exact hb e he
  | cons l rest ih =>
    intro blobs hls hb e he
    rw [addBaseLayers] at he
    split at he
    · exact ih blobs (fun x hx => hls x (List.mem_cons_of_mem l hx)) hb e he
    · refine ih _ (fun x hx => hls x (List.mem_cons_of_mem l hx)) ?_ e he
      intro x hx
      rcases List.mem_append.mp hx with hx | hx
      · exact hb x hx
      · rcases List.mem_singleton.mp hx with rfl
        exact hls l (List.mem_cons_self l rest)

theorem containerizePlatform_blobs_named (ext : Ext) (plugin : PluginModel)
    (job : BuildJob) (remoteBase : Platform → BaseImage)
    (gitDescribe : Option String) (sharedLayers : List ImageLayer)
    (blobs : List (String × List Nat)) (p : Platform)
    (hpb : ∀ e ∈ plugin.platformBlobs p, e.1 = ext.sha256 e.2)
    (hbase : ∀ q, ∀ l ∈ (remoteBase q).layers, l.digestHex = ext.sha256 l.compressed)
    (hb : ∀ e ∈ blobs, e.1 = ext.sha256 e.2) :
    ∀ e ∈ (containerizePlatform ext plugin job remoteBase gitDescribe sharedLayers
      blobs p).1, e.1 = ext.sha256 e.2 := by
  have hb1 : ∀ x ∈ blobs ++ plugin.platformBlobs p, x.1 = ext.sha256 x.2 := by
    intro x hx
    rcases List.mem_append.mp hx with hx | hx
    · exact hb x hx
    · exact hpb x hx
  have hb2 : ∀ x ∈ (match pullBase plugin job remoteBase p with
      | none => blobs ++ plugin.platformBlobs p
      | some b => addBaseLayers b.layers (blobs ++ plugin.platformBlobs p)),
      x.1 = ext.sha256 x.2 := by
    cases hpull : pullBase plugin job remoteBase p with
    | none => simpa using hb1
    | some b =>
      simp only []
      refine addBaseLayers_named ext b.layers _ ?_ hb1
      have hbr : b = remoteBase p := by
        unfold pullBase at hpull
        split at hpull
        · cases hpull
        · cases hpull; rfl
      subst hbr
      exact hbase p
  intro e he
  dsimp only [containerizePlatform] at he
  rcases List.mem_append.mp he with he | he
  · rcases List.mem_append.mp he with he | he
    · exact hb2 e he
    · rcases List.mem_singleton.mp he with rfl
      rfl
  · rcases List.mem_singleton.mp he with rfl
    rfl

theorem containerizeLoop_blobs_named (ext : Ext) (plugin : PluginModel)
    (job : BuildJob) (remoteBase : Platform → BaseImage)
    (gitDescribe : Option String) (sharedLayers : List ImageLayer)
    (hpb : ∀ p, ∀ e ∈ plugin.platformBlobs p, e.1 = ext.sha256 e.2)
    (hbase : ∀ q, ∀ l ∈ (remoteBase q).layers, l.digestHex = ext.sha256 l.compressed) :
    ∀ (ps : List Platform) (blobs : List (String × List Nat)),
      (∀ e ∈ blobs, e.1 = ext.sha256 e.2) →
      ∀ e ∈ (containerizeLoop ext plugin job remoteBase gitDescribe sharedLayers
        ps blobs).1, e.1 = ext.sha256 e.2 := by
  intro ps
  induction ps with
  | nil =>
    intro blobs hb e he
    exact hb e he
  | cons p ps ih =>
    intro blobs hb e he
    dsimp only [containerizeLoop] at he
    exact ih _ (containerizePlatform_blobs_named ext plugin job remoteBase gitDescribe
      sharedLayers blobs p (hpb p) hbase hb) e he

/-- C1: for every build with the Go plugin that completes, every file
placed under oci/blobs/sha256 — the tar.gz layer blobs renamed there by
writeDataLayer, writeCertsLayer and the Go plugin's WritePlatform, the
JSON config and manifest blobs written by writeAsJSONBlob, and the
base-image layers hard-linked from blob-cache — has a file name equal to
the sha256 hex digest of its own bytes, given that the registry's base
layers declare their true digests (the remote fetch verifies them). -/
theorem blobs_content_addressed (ext : Ext) (job : BuildJob)
    (remoteBase : Platform → BaseImage) (dataTar certsTar : List Nat)
    (exeTar : Platform → List Nat) (gitDescribe : Option String)
    (hbase : ∀ q, ∀ l ∈ (remoteBase q).layers, l.digestHex = ext.sha256 l.compressed)
    (e : String × List Nat)
    (hmem : e ∈ (containerize ext (goPlugin ext exeTar) job remoteBase dataTar
      certsTar gitDescribe).blobs) :
    e.1 = ext.sha256 e.2 := by
  dsimp only [containerize] at hmem
  refine containerizeLoop_blobs_named ext (goPlugin ext exeTar) job remoteBase
    gitDescribe _ ?_ hbase job.platforms _ ?_ e hmem
  · intro p x hx
    rcases List.mem_singleton.mp hx with rfl
    rfl
  · intro x hx
    rcases List.mem_append.mp hx with hx | hx
    · rcases List.mem_cons.mp hx with rfl | hx
      · rfl
      · rcases List.mem_singleton.mp hx with rfl
        rfl
    · dsimp only [goPlugin] at hx
      cases hx

/-- Witness for C1: a blob of the concrete one-platform Go build with a
one-layer base image. -/
theorem blobs_content_addressed_witness :
    (("h", [1]) : String × List Nat).1
      = (Ext.mk (fun _ => "h") id (fun _ => []) (fun _ => [])).sha256
        (("h", [1]) : String × List Nat).2 :=
  blobs_content_addressed ⟨fun _ => "h", id, fun _ => [], fun _ => []⟩
    ⟨⟨"t0"⟩, "f0", ["A=1"], [], "debian", [⟨"linux", "amd64", "", ""⟩]⟩
    (fun _ => ⟨[⟨OCILayerMT, "h", 2, none⟩], [⟨"h", [9]⟩], ⟨["E0=x"], "", [], ["bdiff"]⟩⟩)
    [1] [2] (fun _ => [3]) none
    (fun q => by
      intro l hl
      rcases List.mem_singleton.mp hl with rfl
      rfl)
    ("h", [1]) (by decide)

end OciBuilder
